import Mathlib

/-!
Shallow embedding of the strided tensor addressing view of
src/nvcv_types/include/nvcv/cuda/TensorWrap.hpp (namespace nvcv::cuda).

The C++ template parameter pack of N per-dimension byte strides, where -1
marks a run-time stride, is modelled as a list of integers S.  Byte
addresses are modelled as integers; the base pointer of a view is the
integer address of its first byte.  Signed 32-bit conversion of an int64
stride (the assignment m_strides[i] = tensor.stride(i)) is modelled as
reduction modulo 2^32 into the signed range.  NVCV_ASSERT failure, which
aborts the process, is modelled as Option.none of the constructor result;
a static_assert that rejects an instantiation at compile time is modelled
the same way.
-/

/-- kNumDimensions: sizeof...(Strides), the dimensionality N of the view. -/
def kNumDimensions (S : List Int) : Nat := S.length

/-- kVariableStrides: number of run-time (-1) entries in the stride pack. -/
def kVariableStrides (S : List Int) : Nat := S.countP (fun s => s == -1)

/-- kConstantStrides: number of compile-time constant entries. -/
def kConstantStrides (S : List Int) : Nat := kNumDimensions S - kVariableStrides S

/-- largest value of the C++ type int, TypeTraits-int-max. -/
def intMax : Int := 2 ^ 31 - 1

/-- smallest value of the C++ type int. -/
def intMin : Int := -(2 ^ 31)

/-- conversion of an int64 value to the C++ type int: reduction modulo 2^32
into the signed 32-bit range, as performed by the targeted compilers. -/
def wrap32 (x : Int) : Int := (x + 2 ^ 31) % 2 ^ 32 - 2 ^ 31

/-- TensorWrap of stride pack S: the non-owning addressing view, holding the
base byte address m_data and the array m_strides of run-time strides.  A
default-constructed view has a null (zero) base address and zero strides. -/
structure TensorWrap (S : List Int) where
  m_data : Int
  m_strides : List Int

/-- doGetPtr of the read-only view: given kArgSize coordinates from first
(slowest) to last (fastest) dimension, accumulate coords[i] * m_strides[i]
over i < min(kArgSize, kVariableStrides) and coords[i] * Strides[i] over
kVariableStrides <= i < min(kArgSize, kNumDimensions), and add the byte
offset to the base address. -/
def TensorWrap.doGetPtr {S : List Int} (w : TensorWrap S) (c : List Int) : Int :=
  w.m_data
    + ((∑ i ∈ Finset.range (min c.length (kVariableStrides S)),
          c.getD i 0 * w.m_strides.getD i 0)
      + ∑ i ∈ Finset.Ico (kVariableStrides S) (min c.length (kNumDimensions S)),
          c.getD i 0 * S.getD i 0)

/-- ptr of the read-only view: forwards its coordinates to doGetPtr. -/
def TensorWrap.ptr {S : List Int} (w : TensorWrap S) (c : List Int) : Int :=
  w.doGetPtr c

/-- default constructor TensorWrap(): null data pointer and zero-filled
run-time stride array. -/
def TensorWrap.mkDefault (S : List Int) : TensorWrap S :=
  ⟨0, List.replicate (kVariableStrides S) 0⟩

/-- constructor from a raw data pointer and the run-time strides; the
static_assert requires exactly kVariableStrides stride arguments, modelled
as none on arity mismatch. -/
def TensorWrap.mkFromPtr (S : List Int) (data : Int) (vs : List Int) :
    Option (TensorWrap S) :=
  if vs.length = kVariableStrides S then some ⟨data, vs⟩ else none

/-- plane 0 of an IImageDataStridedCuda: base pointer and row stride. -/
structure ImagePlane where
  basePtr : Int
  rowStride : Int

/-- constructor from an IImageDataStridedCuda: requires (static_assert)
kVariableStrides == 1 and kNumDimensions == 2, then captures the base
pointer and row stride of plane 0. -/
def TensorWrap.mkFromImage (S : List Int) (image : ImagePlane) :
    Option (TensorWrap S) :=
  if kVariableStrides S = 1 ∧ kNumDimensions S = 2 then
    some ⟨image.basePtr, [image.rowStride]⟩
  else none

/-- an ITensorDataStridedCuda: rank, per-axis byte stride (int64) and base
pointer, as side-effect-free queries. -/
structure TensorDesc where
  rank : Nat
  stride : Nat → Int
  basePtr : Int

/-- loop body of the tensor-descriptor constructor over the axis indices:
a constant slot asserts the reported stride equals the constant; a run-time
slot with index below kVariableStrides asserts the reported stride is at
most intMax and assigns it (converted to int) into the stride array; any
other slot does nothing. -/
def tensorLoop (S : List Int) (t : TensorDesc) :
    List Nat → List Int → Option (List Int)
  | [], ms => some ms
  | i :: rest, ms =>
    if S.getD i 0 ≠ -1 then
      if t.stride i = S.getD i 0 then tensorLoop S t rest ms else none
    else if i < kVariableStrides S then
      if t.stride i ≤ intMax then
        tensorLoop S t rest (ms.set i (wrap32 (t.stride i)))
      else none
    else tensorLoop S t rest ms

/-- constructor from an ITensorDataStridedCuda: asserts rank >= N, captures
the base pointer, and runs the per-axis loop over the zero-filled stride
array. -/
def TensorWrap.mkFromTensor (S : List Int) (t : TensorDesc) :
    Option (TensorWrap S) :=
  if kNumDimensions S ≤ t.rank then
    (tensorLoop S t (List.range (kNumDimensions S))
        (List.replicate (kVariableStrides S) 0)).map
      (fun ms => ⟨t.basePtr, ms⟩)
  else none

/-- int2 coordinate vector (x is the fastest-varying component). -/
structure Int2 where
  x : Int
  y : Int

/-- int3 coordinate vector. -/
structure Int3 where
  x : Int
  y : Int
  z : Int

/-- int4 coordinate vector. -/
structure Int4 where
  x : Int
  y : Int
  z : Int
  w : Int

/-- subscript with an int2 coordinate: doGetPtr(c.y, c.x). -/
def TensorWrap.opIndex2 {S : List Int} (w : TensorWrap S) (c : Int2) : Int :=
  w.doGetPtr [c.y, c.x]

/-- subscript with an int3 coordinate: doGetPtr(c.z, c.y, c.x). -/
def TensorWrap.opIndex3 {S : List Int} (w : TensorWrap S) (c : Int3) : Int :=
  w.doGetPtr [c.z, c.y, c.x]

/-- subscript with an int4 coordinate: doGetPtr(c.w, c.z, c.y, c.x). -/
def TensorWrap.opIndex4 {S : List Int} (w : TensorWrap S) (c : Int4) : Int :=
  w.doGetPtr [c.w, c.z, c.y, c.x]

/-- mutable TensorWrap: derives from the read-only view and shares all of
its state (public inheritance of TensorWrap of const T). -/
structure MutTensorWrap (S : List Int) where
  base : TensorWrap S

/-- doGetPtr of the mutable view: const_cast of the base doGetPtr result,
hence the same address. -/
def MutTensorWrap.doGetPtr {S : List Int} (w : MutTensorWrap S) (c : List Int) : Int :=
  w.base.doGetPtr c

/-- ptr of the mutable view: forwards to its doGetPtr. -/
def MutTensorWrap.ptr {S : List Int} (w : MutTensorWrap S) (c : List Int) : Int :=
  w.doGetPtr c

/-- byte-addressed memory holding an element value per address. -/
def store (m : Int → Int) (a v : Int) : Int → Int :=
  fun x => if x = a then v else m x

/-- read the element value at an address. -/
def load (m : Int → Int) (a : Int) : Int := m a

/-- strideAt, following the claims: the effective stride of dimension i is
read from the stored variable-stride array for i below the runtime count
and from the compile-time constant otherwise. -/
def strideAt (S : List Int) (w : TensorWrap S) (i : Nat) : Int :=
  if i < kVariableStrides S then w.m_strides.getD i 0 else S.getD i 0

/-- constOffset, following the claims: the sum of only the constant-stride
contributions of the supplied coordinates, those at indices from
kVariableStrides up to the number of coordinates supplied. -/
def constOffset (S : List Int) (c : List Int) : Int :=
  ∑ i ∈ Finset.Ico (kVariableStrides S) (min c.length (kNumDimensions S)),
    c.getD i 0 * S.getD i 0

/-- the runtime-stride count never exceeds the dimensionality. -/
theorem kVariableStrides_le (S : List Int) : kVariableStrides S ≤ kNumDimensions S :=
  List.countP_le_length _

/-- getD of a list of zeros is zero at every index. -/
theorem getD_replicate_zero (n i : Nat) : (List.replicate n (0 : Int)).getD i 0 = 0 := by
  rw [List.getD_eq_getElem?_getD, List.getElem?_replicate]
  split <;> rfl

/-- full coordinate application: with exactly N coordinates, doGetPtr adds to
the base address the dot product of the coordinates with the effective
per-dimension strides. -/
theorem doGetPtr_full (S : List Int) (w : TensorWrap S) (c : List Int)
    (hc : c.length = kNumDimensions S) :
    w.doGetPtr c
      = w.m_data + ∑ i ∈ Finset.range (kNumDimensions S), c.getD i 0 * strideAt S w i := by
  have hV : kVariableStrides S ≤ kNumDimensions S := kVariableStrides_le S
  unfold TensorWrap.doGetPtr
  rw [hc, min_eq_right hV, min_self]
  congr 1
  rw [Finset.range_eq_Ico, ← Finset.sum_Ico_consecutive _ (Nat.zero_le (kVariableStrides S)) hV]
  congr 1
  · exact Finset.sum_congr rfl (fun i hi => by
      unfold strideAt
      rw [if_pos (Finset.mem_Ico.mp hi).2])
  · exact Finset.sum_congr rfl (fun i hi => by
      unfold strideAt
      rw [if_neg (not_lt.mpr (Finset.mem_Ico.mp hi).1)])

/-- C1: for every supported dimensionality N in 1..4, every view V with base
address A and stored variable strides, and every full N-tuple of int
coordinates c ordered outermost-first, V.ptr(c) equals A plus the byte
offset given by the sum over i < N of c[i] times stride i, where stride i
is read from the stored variable-stride array for i below the runtime
count and from the compile-time constant otherwise. -/
theorem C1_ptr_full_tuple (S : List Int) (w : TensorWrap S) (c : List Int)
    (h1 : 1 ≤ kNumDimensions S) (h4 : kNumDimensions S ≤ 4)
    (hc : c.length = kNumDimensions S) :
    w.ptr c = w.m_data + ∑ i ∈ Finset.range (kNumDimensions S), c.getD i 0 * strideAt S w i :=
  doGetPtr_full S w c hc

/-- C1 witness: a concrete 2D view with base address 100, variable stride 640
and constant stride 4, evaluated at the coordinate pair (5, 10). -/
theorem C1_ptr_full_tuple_witness :
    TensorWrap.ptr (S := [-1, 4]) ⟨100, [640]⟩ [5, 10] = 3340 :=
  (C1_ptr_full_tuple [-1, 4] ⟨100, [640]⟩ [5, 10] (by decide) (by decide)
    (by decide)).trans (by decide)

/-- C2: supplying only the leading k coordinates, k < N, is equivalent to
supplying all N coordinates with the trailing ones zero. -/
theorem C2_padding_zero_coords (S : List Int) (w : TensorWrap S) (c : List Int)
    (hk : c.length < kNumDimensions S) :
    w.ptr c = w.ptr (c ++ List.replicate (kNumDimensions S - c.length) 0) := by
  have hV : kVariableStrides S ≤ kNumDimensions S := kVariableStrides_le S
  have hlen : (c ++ List.replicate (kNumDimensions S - c.length) 0).length = kNumDimensions S := by
    rw [List.length_append, List.length_replicate, Nat.add_sub_cancel' (le_of_lt hk)]
  have hgd : ∀ i, (c ++ List.replicate (kNumDimensions S - c.length) 0).getD i 0
      = if i < c.length then c.getD i 0 else 0 := by
    intro i
    by_cases hik : i < c.length
    · rw [List.getD_append _ _ _ _ hik, if_pos hik]
    · rw [List.getD_append_right _ _ _ _ (not_lt.mp hik), if_neg hik, getD_replicate_zero]
  unfold TensorWrap.ptr TensorWrap.doGetPtr
  rw [hlen, min_eq_right hV, min_self, min_eq_left (le_of_lt hk)]
  congr 1
  congr 1
  · have step : ∀ i ∈ Finset.range (kVariableStrides S),
        (c ++ List.replicate (kNumDimensions S - c.length) 0).getD i 0 * w.m_strides.getD i 0
          = if i < c.length then c.getD i 0 * w.m_strides.getD i 0 else 0 := by
      intro i _
      rw [hgd i, ite_mul, zero_mul]
    rw [Finset.sum_congr rfl step, ← Finset.sum_filter, Finset.range_eq_Ico,
      Finset.Ico_filter_lt, ← Finset.range_eq_Ico]
    rw [min_comm]
  · have step : ∀ i ∈ Finset.Ico (kVariableStrides S) (kNumDimensions S),
        (c ++ List.replicate (kNumDimensions S - c.length) 0).getD i 0 * S.getD i 0
          = if i < c.length then c.getD i 0 * S.getD i 0 else 0 := by
      intro i _
      rw [hgd i, ite_mul, zero_mul]
    rw [Finset.sum_congr rfl step, ← Finset.sum_filter, Finset.Ico_filter_lt]
    rw [min_comm, min_eq_left (le_of_lt hk)]

/-- C2 witness: a concrete 3D view where the pointer at the single leading
coordinate equals the pointer at that coordinate padded with two zeros. -/
theorem C2_padding_zero_coords_witness :
    TensorWrap.ptr (S := [-1, -1, 4]) ⟨100, [6144, 16]⟩ [2]
      = TensorWrap.ptr (S := [-1, -1, 4]) ⟨100, [6144, 16]⟩ ([2] ++ List.replicate (kNumDimensions [-1, -1, 4] - 1) 0) :=
  C2_padding_zero_coords [-1, -1, 4] ⟨100, [6144, 16]⟩ [2] (by decide)

/-- C10: a default-constructed view has a null (zero) base address and all
stored variable strides zero; ptr with no coordinates returns the null
pointer, and ptr at any coordinates returns the zero base plus only the
constant-stride contributions of the supplied trailing-dimension
coordinates. -/
theorem C10_default_view (S : List Int) (c : List Int) :
    (TensorWrap.mkDefault S).m_data = 0
    ∧ (TensorWrap.mkDefault S).m_strides = List.replicate (kVariableStrides S) 0
    ∧ (TensorWrap.mkDefault S).ptr [] = 0
    ∧ (TensorWrap.mkDefault S).ptr c = 0 + constOffset S c := by
  refine ⟨rfl, rfl, ?_, ?_⟩
  · unfold TensorWrap.ptr TensorWrap.doGetPtr TensorWrap.mkDefault
    simp
  · unfold TensorWrap.ptr TensorWrap.doGetPtr TensorWrap.mkDefault constOffset
    have hz : ∀ i ∈ Finset.range (min c.length (kVariableStrides S)),
        c.getD i 0 * (List.replicate (kVariableStrides S) (0 : Int)).getD i 0 = 0 := by
      intro i _
      rw [getD_replicate_zero, mul_zero]
    rw [Finset.sum_congr rfl hz]
    simp

/-- a bad slot in the index list forces the constructor loop to abort:
either a constant slot whose reported stride mismatches, or a run-time
slot below the runtime count whose reported stride exceeds intMax. -/
theorem tensorLoop_none (S : List Int) (t : TensorDesc) (i : Nat) :
    ∀ (l : List Nat) (ms : List Int), i ∈ l →
      ((S.getD i 0 ≠ -1 ∧ t.stride i ≠ S.getD i 0) ∨
        (S.getD i 0 = -1 ∧ i < kVariableStrides S ∧ intMax < t.stride i)) →
      tensorLoop S t l ms = none := by
  intro l
  induction l with
  | nil => intro ms h _; exact absurd h (List.not_mem_nil i)
  | cons j rest ih =>
    intro ms hmem hbad
    simp only [tensorLoop]
    rcases List.mem_cons.mp hmem with hij | hmem2
    · subst hij
      rcases hbad with ⟨h1, h2⟩ | ⟨h1, h2, h3⟩
      · rw [if_pos h1, if_neg h2]
      · rw [if_neg (not_not.mpr h1), if_pos h2, if_neg (not_le.mpr h3)]
    · split
      · split
        · exact ih _ hmem2 hbad
        · rfl
      · split
        · split
          · exact ih _ hmem2 hbad
          · rfl
        · exact ih _ hmem2 hbad

/-- with no bad slot in the index list, the constructor loop completes. -/
theorem tensorLoop_some (S : List Int) (t : TensorDesc) :
    ∀ (l : List Nat) (ms : List Int),
      (∀ i ∈ l, (S.getD i 0 ≠ -1 → t.stride i = S.getD i 0) ∧
        (S.getD i 0 = -1 → i < kVariableStrides S → t.stride i ≤ intMax)) →
      (tensorLoop S t l ms).isSome := by
  intro l
  induction l with
  | nil => intro ms _; rfl
  | cons j rest ih =>
    intro ms hgood
    have hj := hgood j (List.mem_cons_self j rest)
    have hrest : ∀ i ∈ rest, (S.getD i 0 ≠ -1 → t.stride i = S.getD i 0) ∧
        (S.getD i 0 = -1 → i < kVariableStrides S → t.stride i ≤ intMax) :=
      fun i hi => hgood i (List.mem_cons_of_mem j hi)
    simp only [tensorLoop]
    by_cases hc : S.getD j 0 ≠ -1
    · rw [if_pos hc, if_pos (hj.1 hc)]
      exact ih _ hrest
    · rw [if_neg hc]
      push_neg at hc
      by_cases hv : j < kVariableStrides S
      · rw [if_pos hv, if_pos (hj.2 hc hv)]
        exact ih _ hrest
      · rw [if_neg hv]
        exact ih _ hrest

/-- indices absent from the list keep their stride-array entry unchanged. -/
theorem tensorLoop_getD_not_mem (S : List Int) (t : TensorDesc) (i : Nat) :
    ∀ (l : List Nat) (ms ms2 : List Int), i ∉ l →
      tensorLoop S t l ms = some ms2 → ms2.getD i 0 = ms.getD i 0 := by
  intro l
  induction l with
  | nil =>
    intro ms ms2 _ heq
    simp only [tensorLoop, Option.some.injEq] at heq
    rw [heq]
  | cons j rest ih =>
    intro ms ms2 hnm heq
    have hij : i ≠ j := fun h => hnm (h ▸ List.mem_cons_self j rest)
    have hnr : i ∉ rest := fun h => hnm (List.mem_cons_of_mem j h)
    simp only [tensorLoop] at heq
    split at heq
    · split at heq
      · exact ih _ _ hnr heq
      · exact absurd heq (by simp)
    · split at heq
      · split at heq
        · have hstep := ih _ _ hnr heq
          rw [hstep, List.getD_eq_getElem?_getD, List.getElem?_set_ne (Ne.symm hij),
            ← List.getD_eq_getElem?_getD]
        · exact absurd heq (by simp)
      · exact ih _ _ hnr heq

/-- on success, a run-time slot below the runtime count stores the reported
stride converted to int. -/
theorem tensorLoop_getD_runtime (S : List Int) (t : TensorDesc) (i : Nat)
    (hslot : S.getD i 0 = -1) (hiV : i < kVariableStrides S) :
    ∀ (l : List Nat) (ms ms2 : List Int), l.Nodup → i ∈ l → i < ms.length →
      tensorLoop S t l ms = some ms2 → ms2.getD i 0 = wrap32 (t.stride i) := by
  intro l
  induction l with
  | nil => intro ms ms2 _ h _ _; exact absurd h (List.not_mem_nil i)
  | cons j rest ih =>
    intro ms ms2 hnd hmem hlen heq
    simp only [tensorLoop] at heq
    rcases List.mem_cons.mp hmem with hij | hmem2
    · subst hij
      rw [if_neg (not_not.mpr hslot), if_pos hiV] at heq
      split at heq
      · have hnr : i ∉ rest := (List.nodup_cons.mp hnd).1
        have hstep := tensorLoop_getD_not_mem S t i rest _ _ hnr heq
        rw [hstep, List.getD_eq_getElem?_getD, List.getElem?_set_self hlen]
        rfl
      · exact absurd heq (by simp)
    · have hndr : rest.Nodup := (List.nodup_cons.mp hnd).2
      split at heq
      · split at heq
        · exact ih _ _ hndr hmem2 hlen heq
        · exact absurd heq (by simp)
      · split at heq
        · split at heq
          · exact ih _ _ hndr hmem2 (by rw [List.length_set]; exact hlen) heq
          · exact absurd heq (by simp)
        · exact ih _ _ hndr hmem2 hlen heq

/-- C3: a constant-stride slot whose descriptor-reported stride differs from
the compile-time constant makes construction from the tensor descriptor
fail by assertion; when every constant slot matches (and the remaining
assertions, on the rank and on the run-time strides, pass) construction
succeeds, and the effective stride of every constant slot of any produced
view is still the compile-time constant. -/
theorem C3_constant_stride_check (S : List Int) (t : TensorDesc) :
    (∀ i, i < kNumDimensions S → S.getD i 0 ≠ -1 → t.stride i ≠ S.getD i 0 →
      TensorWrap.mkFromTensor S t = none)
    ∧ ((kNumDimensions S ≤ t.rank
        ∧ (∀ i, i < kNumDimensions S → S.getD i 0 ≠ -1 → t.stride i = S.getD i 0)
        ∧ (∀ i, i < kVariableStrides S → S.getD i 0 = -1 → t.stride i ≤ intMax)) →
      (TensorWrap.mkFromTensor S t).isSome = true)
    ∧ (∀ w : TensorWrap S, ∀ i, kVariableStrides S ≤ i → strideAt S w i = S.getD i 0) := by
  refine ⟨?_, ?_, ?_⟩
  · intro i hiN hc hne
    unfold TensorWrap.mkFromTensor
    split
    · rw [tensorLoop_none S t i _ _ (List.mem_range.mpr hiN) (Or.inl ⟨hc, hne⟩)]
      rfl
    · rfl
  · rintro ⟨hrank, hconst, hrt⟩
    unfold TensorWrap.mkFromTensor
    rw [if_pos hrank]
    have hgood : ∀ i ∈ List.range (kNumDimensions S),
        (S.getD i 0 ≠ -1 → t.stride i = S.getD i 0) ∧
        (S.getD i 0 = -1 → i < kVariableStrides S → t.stride i ≤ intMax) :=
      fun i hi => ⟨fun hc => hconst i (List.mem_range.mp hi) hc,
        fun hs hv => hrt i hv hs⟩
    have h := tensorLoop_some S t (List.range (kNumDimensions S))
      (List.replicate (kVariableStrides S) 0) hgood
    rcases Option.isSome_iff_exists.mp h with ⟨ms, hms⟩
    rw [hms]
    rfl
  · intro w i hi
    unfold strideAt
    rw [if_neg (not_lt.mpr hi)]

/-- C3 witness: the 2D view with constant trailing stride 4 rejects a
descriptor reporting stride 3 at that axis and accepts one reporting 4. -/
theorem C3_constant_stride_check_witness :
    TensorWrap.mkFromTensor [-1, 4] ⟨2, fun i => if i = 0 then 640 else 3, 0⟩ = none
    ∧ (TensorWrap.mkFromTensor [-1, 4] ⟨2, fun i => if i = 0 then 640 else 4, 0⟩).isSome = true :=
  ⟨(C3_constant_stride_check [-1, 4] ⟨2, fun i => if i = 0 then 640 else 3, 0⟩).1 1
      (by decide) (by decide) (by decide),
    (C3_constant_stride_check [-1, 4] ⟨2, fun i => if i = 0 then 640 else 4, 0⟩).2.1
      ⟨by decide, by decide, by decide⟩⟩

/-- C4 counterexample: the reported stride -(2^40) at the run-time slot 0 of
the 2D view lies outside the 32-bit signed range, yet construction from the
descriptor succeeds (the assertion only checks the upper bound), and the
stored variable stride is 0, not the reported stride. -/
theorem C4_counterexample :
    ((-(2 ^ 40) : Int) < intMin)
    ∧ (TensorWrap.mkFromTensor [-1, 4]
        ⟨2, fun i => if i = 0 then -(2 ^ 40) else 4, 0⟩).isSome = true
    ∧ (TensorWrap.mkFromTensor [-1, 4]
          ⟨2, fun i => if i = 0 then -(2 ^ 40) else 4, 0⟩).map
        (fun w => w.m_strides.getD 0 0) = some 0
    ∧ (0 : Int) ≠ -(2 ^ 40) :=
  ⟨by decide, by decide, by decide, by decide⟩

/-- C4 amended: for a run-time slot i below the runtime count, construction
asserts only that the reported stride does not exceed intMax (a larger
value aborts); on success the stored variable stride is the reported
stride converted to a 32-bit int, which equals the reported stride exactly
whenever that stride lies within the 32-bit signed range. -/
theorem C4_runtime_stride_check (S : List Int) (t : TensorDesc) (i : Nat)
    (hiV : i < kVariableStrides S) (hslot : S.getD i 0 = -1) :
    (intMax < t.stride i → TensorWrap.mkFromTensor S t = none)
    ∧ (∀ w : TensorWrap S, TensorWrap.mkFromTensor S t = some w →
        w.m_strides.getD i 0 = wrap32 (t.stride i))
    ∧ (intMin ≤ t.stride i → t.stride i ≤ intMax → wrap32 (t.stride i) = t.stride i) := by
  have hiN : i < kNumDimensions S := lt_of_lt_of_le hiV (kVariableStrides_le S)
  refine ⟨?_, ?_, ?_⟩
  · intro hbig
    unfold TensorWrap.mkFromTensor
    split
    · rw [tensorLoop_none S t i _ _ (List.mem_range.mpr hiN) (Or.inr ⟨hslot, hiV, hbig⟩)]
      rfl
    · rfl
  · intro w hw
    unfold TensorWrap.mkFromTensor at hw
    split at hw
    · rcases Option.map_eq_some'.mp hw with ⟨ms, hms, hfw⟩
      have hval := tensorLoop_getD_runtime S t i hslot hiV (List.range (kNumDimensions S))
        (List.replicate (kVariableStrides S) 0) ms (List.nodup_range _)
        (List.mem_range.mpr hiN) (by rw [List.length_replicate]; exact hiV) hms
      rw [← hfw]
      exact hval
    · exact absurd hw (by simp)
  · intro hlo hhi
    unfold wrap32 intMin intMax at *
    have hp : (2 : Int) ^ 32 = 2 ^ 31 + 2 ^ 31 := by norm_num
    rw [Int.emod_eq_of_lt (by linarith) (by linarith)]
    ring

/-- C4 witness for the amended claim: the over-range stride 2^40 at the
run-time slot aborts construction, and the in-range stride 640 is stored
exactly. -/
theorem C4_runtime_stride_check_witness :
    TensorWrap.mkFromTensor [-1, 4] ⟨2, fun i => if i = 0 then 2 ^ 40 else 4, 0⟩ = none
    ∧ wrap32 640 = 640 :=
  ⟨(C4_runtime_stride_check [-1, 4] ⟨2, fun i => if i = 0 then 2 ^ 40 else 4, 0⟩ 0
      (by decide) (by decide)).1 (by decide),
    (C4_runtime_stride_check [-1, 4] ⟨2, fun i => if i = 0 then 640 else 4, 0⟩ 0
      (by decide) (by decide)).2.2 (by decide) (by decide)⟩

/-- the constructor loop never reads the reported stride of a slot marked
run-time whose index is at or beyond the runtime count. -/
theorem tensorLoop_congr (S : List Int) (t t2 : TensorDesc) (i : Nat)
    (hslot : S.getD i 0 = -1) (hiV : kVariableStrides S ≤ i)
    (hagree : ∀ j, j ≠ i → t.stride j = t2.stride j) :
    ∀ (l : List Nat) (ms : List Int), tensorLoop S t l ms = tensorLoop S t2 l ms := by
  intro l
  induction l with
  | nil => intro ms; rfl
  | cons j rest ih =>
    intro ms
    by_cases hij : j = i
    · subst hij
      have e1 : tensorLoop S t (j :: rest) ms = tensorLoop S t rest ms := by
        simp only [tensorLoop]
        rw [if_neg (not_not.mpr hslot), if_neg (not_lt.mpr hiV)]
      have e2 : tensorLoop S t2 (j :: rest) ms = tensorLoop S t2 rest ms := by
        simp only [tensorLoop]
        rw [if_neg (not_not.mpr hslot), if_neg (not_lt.mpr hiV)]
      rw [e1, e2]
      exact ih ms
    · simp only [tensorLoop]
      rw [hagree j hij, funext ih]

/-- C9: for a stride pack violating the trailing-constants ordering, with a
slot marked run-time at an index at or beyond the runtime count, the
tensor-descriptor constructor neither checks nor copies the reported
stride of that axis: two descriptors differing only there construct
identically, with no abort caused by that axis. -/
theorem C9_misordered_slot_ignored (S : List Int) (t t2 : TensorDesc) (i : Nat)
    (hiV : kVariableStrides S ≤ i) (hiN : i < kNumDimensions S)
    (hslot : S.getD i 0 = -1)
    (hrank : t.rank = t2.rank) (hbase : t.basePtr = t2.basePtr)
    (hagree : ∀ j, j ≠ i → t.stride j = t2.stride j) :
    TensorWrap.mkFromTensor S t = TensorWrap.mkFromTensor S t2 := by
  unfold TensorWrap.mkFromTensor
  rw [hrank, hbase, tensorLoop_congr S t t2 i hslot hiV hagree]

/-- C9 witness: on the misordered pack (4, -1), slot 1 is run-time but at
index 1 = runtime count; descriptors reporting 999 and -7 at axis 1
construct identically. -/
theorem C9_misordered_slot_ignored_witness :
    TensorWrap.mkFromTensor [4, -1] ⟨2, fun j => if j = 1 then 999 else 4, 50⟩
      = TensorWrap.mkFromTensor [4, -1] ⟨2, fun j => if j = 1 then -7 else 4, 50⟩ :=
  C9_misordered_slot_ignored [4, -1] ⟨2, fun j => if j = 1 then 999 else 4, 50⟩
    ⟨2, fun j => if j = 1 then -7 else 4, 50⟩ 1 (by decide) (by decide) (by decide)
    rfl rfl (fun j hj => by simp [hj])

/-- C5: the subscript access with an N-component integer vector, N in 2..4,
addresses the element at the byte offset given by the outermost-first
coordinates with the vector components taken in reversed order (the x
component addresses the innermost, fastest-varying dimension): it agrees
with ptr applied to the reversed components, and the offset is the dot
product of those coordinates with the effective strides. -/
theorem C5_subscript_reversed_components (S2 S3 S4 : List Int)
    (w2 : TensorWrap S2) (w3 : TensorWrap S3) (w4 : TensorWrap S4)
    (h2 : kNumDimensions S2 = 2) (h3 : kNumDimensions S3 = 3)
    (h4 : kNumDimensions S4 = 4) (c2 : Int2) (c3 : Int3) (c4 : Int4) :
    (w2.opIndex2 c2 = w2.ptr [c2.y, c2.x]
      ∧ w2.opIndex2 c2 = w2.m_data
          + (c2.y * strideAt S2 w2 0 + c2.x * strideAt S2 w2 1))
    ∧ (w3.opIndex3 c3 = w3.ptr [c3.z, c3.y, c3.x]
      ∧ w3.opIndex3 c3 = w3.m_data
          + (c3.z * strideAt S3 w3 0 + c3.y * strideAt S3 w3 1
            + c3.x * strideAt S3 w3 2))
    ∧ (w4.opIndex4 c4 = w4.ptr [c4.w, c4.z, c4.y, c4.x]
      ∧ w4.opIndex4 c4 = w4.m_data
          + (c4.w * strideAt S4 w4 0 + c4.z * strideAt S4 w4 1
            + c4.y * strideAt S4 w4 2 + c4.x * strideAt S4 w4 3)) := by
  refine ⟨⟨rfl, ?_⟩, ⟨rfl, ?_⟩, ⟨rfl, ?_⟩⟩
  · have h := doGetPtr_full S2 w2 [c2.y, c2.x] (by rw [h2]; rfl)
    rw [TensorWrap.opIndex2, h, h2, Finset.sum_range_succ, Finset.sum_range_succ,
      Finset.sum_range_zero]
    have g0 : ([c2.y, c2.x] : List Int).getD 0 0 = c2.y := rfl
    have g1 : ([c2.y, c2.x] : List Int).getD 1 0 = c2.x := rfl
    rw [g0, g1]
    ring
  · have h := doGetPtr_full S3 w3 [c3.z, c3.y, c3.x] (by rw [h3]; rfl)
    rw [TensorWrap.opIndex3, h, h3, Finset.sum_range_succ, Finset.sum_range_succ,
      Finset.sum_range_succ, Finset.sum_range_zero]
    have g0 : ([c3.z, c3.y, c3.x] : List Int).getD 0 0 = c3.z := rfl
    have g1 : ([c3.z, c3.y, c3.x] : List Int).getD 1 0 = c3.y := rfl
    have g2 : ([c3.z, c3.y, c3.x] : List Int).getD 2 0 = c3.x := rfl
    rw [g0, g1, g2]
    ring
  · have h := doGetPtr_full S4 w4 [c4.w, c4.z, c4.y, c4.x] (by rw [h4]; rfl)
    rw [TensorWrap.opIndex4, h, h4, Finset.sum_range_succ, Finset.sum_range_succ,
      Finset.sum_range_succ, Finset.sum_range_succ, Finset.sum_range_zero]
    have g0 : ([c4.w, c4.z, c4.y, c4.x] : List Int).getD 0 0 = c4.w := rfl
    have g1 : ([c4.w, c4.z, c4.y, c4.x] : List Int).getD 1 0 = c4.z := rfl
    have g2 : ([c4.w, c4.z, c4.y, c4.x] : List Int).getD 2 0 = c4.y := rfl
    have g3 : ([c4.w, c4.z, c4.y, c4.x] : List Int).getD 3 0 = c4.x := rfl
    rw [g0, g1, g2, g3]
    ring

/-- C5 witness: concrete 2D, 3D and 4D views evaluated at concrete vector
coordinates. -/
theorem C5_subscript_reversed_components_witness :
    (TensorWrap.opIndex2 (S := [-1, 4]) ⟨100, [640]⟩ ⟨10, 5⟩
        = TensorWrap.ptr (S := [-1, 4]) ⟨100, [640]⟩ [5, 10]
      ∧ TensorWrap.opIndex2 (S := [-1, 4]) ⟨100, [640]⟩ ⟨10, 5⟩
        = 100 + (5 * strideAt [-1, 4] ⟨100, [640]⟩ 0
            + 10 * strideAt [-1, 4] ⟨100, [640]⟩ 1))
    ∧ (TensorWrap.opIndex3 (S := [-1, -1, 4]) ⟨100, [6144, 16]⟩ ⟨1, 3, 2⟩
        = TensorWrap.ptr (S := [-1, -1, 4]) ⟨100, [6144, 16]⟩ [2, 3, 1]
      ∧ TensorWrap.opIndex3 (S := [-1, -1, 4]) ⟨100, [6144, 16]⟩ ⟨1, 3, 2⟩
        = 100 + (2 * strideAt [-1, -1, 4] ⟨100, [6144, 16]⟩ 0
            + 3 * strideAt [-1, -1, 4] ⟨100, [6144, 16]⟩ 1
            + 1 * strideAt [-1, -1, 4] ⟨100, [6144, 16]⟩ 2))
    ∧ (TensorWrap.opIndex4 (S := [-1, -1, -1, 4]) ⟨100, [6144, 1536, 16]⟩ ⟨0, 1, 3, 2⟩
        = TensorWrap.ptr (S := [-1, -1, -1, 4]) ⟨100, [6144, 1536, 16]⟩ [2, 3, 1, 0]
      ∧ TensorWrap.opIndex4 (S := [-1, -1, -1, 4]) ⟨100, [6144, 1536, 16]⟩ ⟨0, 1, 3, 2⟩
        = 100 + (2 * strideAt [-1, -1, -1, 4] ⟨100, [6144, 1536, 16]⟩ 0
            + 3 * strideAt [-1, -1, -1, 4] ⟨100, [6144, 1536, 16]⟩ 1
            + 1 * strideAt [-1, -1, -1, 4] ⟨100, [6144, 1536, 16]⟩ 2
            + 0 * strideAt [-1, -1, -1, 4] ⟨100, [6144, 1536, 16]⟩ 3)) :=
  C5_subscript_reversed_components [-1, 4] [-1, -1, 4] [-1, -1, -1, 4]
    ⟨100, [640]⟩ ⟨100, [6144, 16]⟩ ⟨100, [6144, 1536, 16]⟩
    (by decide) (by decide) (by decide) ⟨10, 5⟩ ⟨1, 3, 2⟩ ⟨0, 1, 3, 2⟩

/-- C6: a mutable view and an immutable view sharing the same base address
and variable strides address exactly the same memory location for the same
coordinates, and writing a value through the mutable view then reading at
the immutable view address yields that value. -/
theorem C6_write_read_roundtrip (S : List Int) (mw : MutTensorWrap S)
    (iw : TensorWrap S) (hshare : mw.base = iw) (c : List Int) (v : Int)
    (mem : Int → Int) :
    mw.ptr c = iw.ptr c
    ∧ load (store mem (mw.ptr c) v) (iw.ptr c) = v := by
  subst hshare
  refine ⟨rfl, ?_⟩
  simp [load, store, MutTensorWrap.ptr, MutTensorWrap.doGetPtr, TensorWrap.ptr]

/-- C6 witness: a concrete shared 2D view, coordinate (1, 2), value 7. -/
theorem C6_write_read_roundtrip_witness :
    MutTensorWrap.ptr (S := [-1, 4]) ⟨⟨100, [640]⟩⟩ [1, 2]
      = TensorWrap.ptr (S := [-1, 4]) ⟨100, [640]⟩ [1, 2]
    ∧ load (store (fun _ => 0) (MutTensorWrap.ptr (S := [-1, 4]) ⟨⟨100, [640]⟩⟩ [1, 2]) 7)
        (TensorWrap.ptr (S := [-1, 4]) ⟨100, [640]⟩ [1, 2]) = 7 :=
  C6_write_read_roundtrip [-1, 4] ⟨⟨100, [640]⟩⟩ ⟨100, [640]⟩ rfl [1, 2] 7 (fun _ => 0)

/-- C7: the 4D view with strides (run-time, run-time, run-time, constant 4)
constructed from base address P and run-time strides (6144, 1536, 16)
satisfies ptr(2, 3, 1, 0) = P + 16912. -/
theorem C7_concrete_4d (P : Int) :
    (TensorWrap.mkFromPtr [-1, -1, -1, 4] P [6144, 1536, 16]).map
        (fun w => w.ptr [2, 3, 1, 0]) = some (P + 16912) := by
  unfold TensorWrap.mkFromPtr
  rw [if_pos (by decide)]
  simp only [Option.map_some']
  congr 1

/-- C8: the 2D view with one run-time stride and constant stride 4,
constructed from a single-plane image descriptor with base pointer B and
row stride 640, captures the base pointer and row stride and satisfies
ptr(5, 10) = B + 3240; the image constructor rejects any view whose
dimensionality is not 2 with exactly one run-time stride. -/
theorem C8_image_2d (B : Int) (S : List Int)
    (hS : ¬(kVariableStrides S = 1 ∧ kNumDimensions S = 2)) :
    (TensorWrap.mkFromImage [-1, 4] ⟨B, 640⟩).map (fun w => (w.m_data, w.m_strides))
      = some (B, [640])
    ∧ (TensorWrap.mkFromImage [-1, 4] ⟨B, 640⟩).map (fun w => w.ptr [5, 10])
      = some (B + 3240)
    ∧ TensorWrap.mkFromImage S ⟨B, 640⟩ = none := by
  refine ⟨?_, ?_, ?_⟩
  · unfold TensorWrap.mkFromImage
    rw [if_pos ⟨by decide, by decide⟩]
    rfl
  · unfold TensorWrap.mkFromImage
    rw [if_pos ⟨by decide, by decide⟩]
    simp only [Option.map_some']
    congr 1
  · unfold TensorWrap.mkFromImage
    rw [if_neg hS]

/-- C8 witness: base pointer 0 and the 1D stride pack, which the image
constructor rejects. -/
theorem C8_image_2d_witness :
    (TensorWrap.mkFromImage [-1, 4] ⟨0, 640⟩).map (fun w => (w.m_data, w.m_strides))
      = some (0, [640])
    ∧ (TensorWrap.mkFromImage [-1, 4] ⟨0, 640⟩).map (fun w => w.ptr [5, 10])
      = some (0 + 3240)
    ∧ TensorWrap.mkFromImage [-1] ⟨0, 640⟩ = none :=
  C8_image_2d 0 [-1] (by decide)
